import Mathlib

/-!
Shallow embedding of the mustache template engine (`mustache.go`,
`partials.go`) for checking the specification's claims.

Conventions used throughout:
* Go strings are modelled as `List Char` (abbreviated `Str`); the inputs
  exercised by the claims are ASCII, where Go's byte-wise scanning and the
  character-wise scanning here coincide.
* Go's dynamically-typed context data (`interface{}` / `reflect.Value`) is
  modelled by the inductive `Val`.  The value kinds the engine inspects are
  string, slice/array (`.list`), string-keyed map (`.map`), bool and int
  scalars, and callables (`.lam`).  `Val.novalue` models the invalid
  `reflect.Value{}` sentinel.  Pointer/interface indirection (`indirect` in
  the source) is the identity on these direct values and so is not given a
  constructor.
* Fallible Go functions returning `(T, error)` become `Except GoError T`.
* Recursions that are loops in Go are written with an explicit fuel
  parameter (structural recursion on `Nat`) so that every definition
  evaluates inside the kernel; entry-point wrappers supply fuel that is
  provably more than any run can consume.  `.nofuel` outcomes are an
  artifact of the embedding and are never reached at the wrappers' fuel.
* Brace characters inside string literals are written `\x7b` / `\x7d`.
-/

/-- Go `string`, modelled as a list of characters. -/
abbrev Str := List Char

/-- The `{` character. -/
def lbrace : Char := Char.ofNat 123

/-- The `}` character. -/
def rbrace : Char := Char.ofNat 125

/-- The `'` character. -/
def aposChar : Char := Char.ofNat 39

/-- Characters trimmed by Go's `strings.TrimSpace` (`unicode.IsSpace`):
space, tab, newline, vertical tab, form feed, carriage return, NEL and NBSP. -/
def isSpaceGo (c : Char) : Bool :=
  c = ' ' || c = '\t' || c = '\n' || c = Char.ofNat 11 || c = Char.ofNat 12 ||
  c = '\r' || c = Char.ofNat 133 || c = Char.ofNat 160

/-- Drop leading Go-whitespace characters. -/
def trimLeftGo : Str → Str
  | [] => []
  | c :: cs => if isSpaceGo c then trimLeftGo cs else c :: cs

/-- Go `strings.TrimSpace`. -/
def trimSpace (s : Str) : Str :=
  ((trimLeftGo ((trimLeftGo s.reverse))).reverse)

/-- Errors produced by the engine.  `parseErr` is the source's `parseError`
(1-based line plus message); `missingVariable` is the
`fmt.Errorf("missing variable %q", name)` of `lookup`; `custom` stands for
an arbitrary `error` value returned by caller-supplied code (lambdas). -/
inductive GoError where
  | parseErr (line : Nat) (msg : String)
  | missingVariable (name : String)
  | custom (msg : String)
deriving DecidableEq, Repr

/-- Host data values seen through `reflect`, as used by `lookup`,
`isEmpty` and `renderSection`. -/
inductive Val where
  | str (s : Str)
  | int (n : Int)
  | bool (b : Bool)
  | list (xs : List Val)
  | map (kvs : List (String × Val))
  | lam (f : String → Except GoError String)
  | novalue

/-- `EscapeMode` from the source. -/
inductive EscapeMode where
  | EscapeHTML
  | EscapeJSON
  | Raw
deriving DecidableEq, Repr

/-- The compiled element tree.  `text`, `var`, `section` mirror
`textElement`, `varElement`, `sectionElement`; `part` mirrors
`partialElement` (its provider reference is configuration, kept in `Cfg`). -/
inductive Elem where
  | text (s : Str)
  | var (name : Str) (raw : Bool)
  | section (name : Str) (inverted : Bool) (startline : Nat) (elems : List Elem)
  | part (name : Str) (indent : Str)

/-- Compiler/template configuration relevant to rendering: the escape mode,
the missing-variable policy, and the optional custom value stringer
(`Compiler.outputMode`, `errorOnMissing`, `valueStringer`).  The partial
provider is modelled in its `nil` (absent) configuration, the one used by
`New()` without `WithPartials`; see `renderF`'s `.part` branch. -/
structure Cfg where
  outputMode : EscapeMode
  errorOnMissing : Bool
  valueStringer : Option (Val → Except GoError String)

/-- Outcome of rendering: the bytes written so far plus how the render
ended.  `.ok` = normal return, `.err` = a non-nil `error` returned to the
caller (the buffer keeps what was already written, as with Go's
`bytes.Buffer`), `.panicked` = a runtime panic escaped (e.g. indexing an
empty context chain), `.nofuel` = fuel artifact, unreachable from the
wrappers. -/
inductive RR where
  | ok (buf : Str)
  | err (buf : Str) (e : GoError)
  | panicked (buf : Str) (msg : String)
  | nofuel (buf : Str)
deriving DecidableEq, Repr

/- ### JSON escaping (`JSONEscape`, mustache.go lines 723-755) -/

/-- Go `unicode.IsControl`: the Latin-1 control ranges U+0000..U+001F and
U+007F..U+009F (`IsControl` returns false above `MaxLatin1`). -/
def isControlGo (r : Char) : Bool :=
  r.toNat < 32 || (127 ≤ r.toNat && r.toNat ≤ 159)

/-- Lowercase hexadecimal digit for `n < 16`, as produced by `%x`. -/
def hexDigit (n : Nat) : Char :=
  if n < 10 then Char.ofNat (48 + n) else Char.ofNat (97 + (n - 10))

/-- The four digits of `fmt.Sprintf("%04x", n)` for `n < 0x10000`. -/
def hex4 (n : Nat) : Str :=
  [hexDigit (n / 4096 % 16), hexDigit (n / 256 % 16),
   hexDigit (n / 16 % 16), hexDigit (n % 16)]

/-- One step of `JSONEscape`'s rune switch. -/
def jsonEscapeChar (r : Char) : Str :=
  if r = '"' || r = '\\' then ['\\', r]
  else if r = '\n' then ['\\', 'n']
  else if r = Char.ofNat 8 then ['\\', 'b']
  else if r = Char.ofNat 12 then ['\\', 'f']
  else if r = '\r' then ['\\', 'r']
  else if r = '\t' then ['\\', 't']
  else if isControlGo r then '\\' :: 'u' :: hex4 r.toNat
  else [r]

/-- `JSONEscape` (the writer is modelled by string concatenation; the write
errors of the `io.Writer` cannot occur on a `bytes.Buffer`). -/
def JSONEscape (s : Str) : Str :=
  (s.map jsonEscapeChar).flatten

/- ### HTML escaping (`html/template.HTMLEscape`, used at line 822) -/

/-- One character of `template.HTMLEscape`. -/
def htmlEscapeChar (c : Char) : Str :=
  if c = Char.ofNat 0 then [Char.ofNat 0xFFFD]
  else if c = '"' then "&#34;".toList
  else if c = aposChar then "&#39;".toList
  else if c = '&' then "&amp;".toList
  else if c = '<' then "&lt;".toList
  else if c = '>' then "&gt;".toList
  else [c]

/-- `template.HTMLEscape` over a whole string. -/
def htmlEscape (s : Str) : Str :=
  (s.map htmlEscapeChar).flatten

/- ### Default value stringification (`fmt.Sprint`, used by `valueString`
and by the raw-variable `fmt.Fprint` at lines 784-789 and 810) -/

/-- Go's `fmt.Sprint`, as used by `valueString` (default stringifier) and
by the raw-variable `fmt.Fprint`.  Scalars are exact: a string prints
verbatim, an int in decimal, a bool as `true`/`false`.  Container and
func formatting is Go library behaviour, not code of this repository, and
no claim stringifies such a value, so those cases are abstracted to fixed
placeholder bracket forms (Go would print `[e1 e2 ...]`, `map[k1:v1 ...]`
with sorted keys, and a func's address).  `renderSection` intercepts
slices, maps and funcs before any stringification, and `renderElement`
skips invalid values, so the placeholder cases are unreachable in every
render this file reasons about. -/
def fmtSprint : Val → String
  | .str s => String.mk s
  | .int n => toString n
  | .bool b => cond b "true" "false"
  | .novalue => "<invalid reflect.Value>"
  | .lam _ => "<func>"
  | .list _ => "[...]"
  | .map _ => "map[...]"

/- ### Name resolution (`lookup`, mustache.go lines 553-616) -/

/-- One chain entry's resolution step: the body of `lookup`'s `Outer` loop
for a single context entry.  An invalid value (`.novalue`) fails the
`v.IsValid()` guard at once.  None of the modelled value kinds exposes
methods, so the zero-argument-method probe never fires.  The `name == "."`
self-reference returns the entry itself; a map looks up the key and any
other kind falls through to the next entry (`continue Outer`). -/
def lookupEntry (v : Val) (name : Str) : Option Val :=
  match v with
  | .novalue => none
  | _ =>
    if name = ['.'] then some v
    else
      match v with
      | .map kvs =>
          match kvs.find? (fun kv => kv.1 = String.mk name) with
          | some kv => some kv.2
          | none => none
      | _ => none

/-- Scan the context chain front to back (`for _, ctx := range contextChain`). -/
def lookupChainF : List Val → Str → Option Val
  | [], _ => none
  | v :: rest, name =>
    match lookupEntry v name with
    | some r => some r
    | none => lookupChainF rest name

/-- Resolution of a single (dot-free) name against the chain, including the
missing-name policy at lines 612-615: no hit yields the invalid sentinel
when `errorOnMissing` is off, and a `missing variable %q` error when it is on. -/
def singleLookup (chain : List Val) (name : Str) (errorOnMissing : Bool) :
    Except GoError Val :=
  match lookupChainF chain name with
  | some v => .ok v
  | none =>
    if errorOnMissing then .error (.missingVariable (String.mk name))
    else .ok .novalue

/-- Number of dots in a name; used as structural fuel for the dotted-name
recursion (each `SplitN(name, ".", 2)` removes exactly one dot). -/
def countDot (s : Str) : Nat := s.count '.'

/-- The dotted-name recursion of `lookup` (lines 556-565), with the dot
count as fuel: a name that is not `"."` and contains a dot is split at the
first dot, the head segment is resolved against the full chain, and the
remainder is resolved against the singleton chain holding the result.
The head segment is dot-free, so its recursive `lookup` is exactly
`singleLookup`. -/
def lookupD (errorOnMissing : Bool) : Nat → List Val → Str → Except GoError Val
  | 0, chain, name => singleLookup chain name errorOnMissing
  | d+1, chain, name =>
    if name = ['.'] || !(name.contains '.') then
      singleLookup chain name errorOnMissing
    else
      let first := name.takeWhile (fun c => c ≠ '.')
      let rest := (name.dropWhile (fun c => c ≠ '.')).tail
      match singleLookup chain first errorOnMissing with
      | .error e => .error e
      | .ok v => lookupD errorOnMissing d [v] rest

/-- `lookup`: resolve `name` against the chain under the given policy. -/
def lookup (chain : List Val) (name : Str) (errorOnMissing : Bool) :
    Except GoError Val :=
  lookupD errorOnMissing (countDot name) chain name

/- ### Emptiness (`isEmpty`, mustache.go lines 618-635) -/

/-- `isEmpty`: the invalid sentinel is empty; a slice/array is empty iff its
length is zero; a string is empty iff trimming surrounding whitespace
leaves nothing; other kinds are empty iff they are their zero value
(`false`, `0`; a non-nil map or func is never zero). -/
def isEmptyVal : Val → Bool
  | .novalue => true
  | .list xs => xs.isEmpty
  | .str s => trimSpace s = []
  | .bool b => !b
  | .int n => n = 0
  | .map _ => false
  | .lam _ => false

/- ### Section source reconstruction (`getSectionText` / `getElementText`,
mustache.go lines 757-782) -/

/-- `getSectionText` / `getElementText`, with fuel for the nesting (the
renderer passes its own remaining fuel down; the entry wrappers' fuel
exceeds any serialization's needs, and every theorem quantifies or fixes
the fuel explicitly).  Text prints verbatim; a variable prints as
`{{name}}` (note: the `raw` flag is not serialized); a section prints
`{{#name}}`/`{{^name}}`, its children, then `{{/name}}`.  A
`partialElement` matches no case of the source's type switch and
contributes nothing.  (The `*Template` case printing `???` is unreachable:
parsing never places a `*Template` among a section's elements.) -/
def getTextF : Nat → List Elem → Str
  | 0, _ => []
  | _, [] => []
  | fuel+1, e :: rest =>
    (match e with
     | .text s => s
     | .var name _ => [lbrace, lbrace] ++ name ++ [rbrace, rbrace]
     | .section name inv _ children =>
         [lbrace, lbrace, if inv then '^' else '#'] ++ name ++ [rbrace, rbrace] ++
         getTextF fuel children ++
         [lbrace, lbrace, '/'] ++ name ++ [rbrace, rbrace]
     | .part _ _ => []) ++ getTextF fuel rest

/-- `getSectionText`: reconstruct the uninterpreted source of a section's
children (fuel as in `getTextF`). -/
def getSectionText (fuel : Nat) (elems : List Elem) : Str :=
  getTextF fuel elems

/- ### Rendering (`renderElement` / `renderSection` / `renderTemplate`,
mustache.go lines 652-875) -/

/-- The three loops of the renderer, merged into one fueled function:
`.one` renders a single element (`renderElement`), `.many` renders a list
in order stopping at the first error (`renderTemplate` and the inner loop
of `renderSection`), and `.iter` is `renderSection`'s outer loop over the
iteration contexts, prepending each to the *original* chain. -/
inductive RJob where
  | one (e : Elem)
  | many (es : List Elem)
  | iter (ctxs : List Val) (es : List Elem)

/-- `valueString` (lines 784-789): the custom stringer if configured, else
`fmt.Sprint`. -/
def valueString (cfg : Cfg) (v : Val) : Except GoError String :=
  match cfg.valueStringer with
  | some f => f v
  | none => .ok (fmtSprint v)

/-- The renderer.  Fuel is decremented on every recursive call; the entry
wrappers pass more fuel than any run can use.

`.one (.text s)` appends the bytes (line 793-795).

`.one (.var ...)` is `renderElement`'s variable branch (lines 796-829):
resolve, propagate a lookup error, write nothing for the invalid sentinel;
otherwise a raw variable writes `fmt.Fprint`'s rendering unescaped, and a
non-raw one goes through `valueString` and the active escape mode.

`.one (.section n inv sl elems)` is `renderSection` (lines 652-721):
resolve the name (propagating errors), then read `contextChain[0]` — a
runtime panic when the chain is empty — then the `empty XOR inverted`
skip, then the kind switch choosing the iteration contexts: a slice/array
iterates per element, a map (or struct) once with the resolved value, a
callable is invoked with the reconstructed section text (its returned
string written verbatim on success, its error returned at once on
failure), any other non-empty value once with itself; an inverted section
iterates once with the outer front-of-chain context.

`.one (.part ...)` is `renderElement`'s partial branch (lines 834-844) in
the `nil`-provider configuration modelled by `Cfg` (no `WithPartials`):
fetching fails, and the error is surfaced only under `errorOnMissing`.
The fetch-failure itself is modelled from the spec: the `tmpl.getPartials`
method wrapping `getPartials` (partials.go) is not present under `src/`;
per the spec's §4.4/§7 and the `WithErrors` doc comment, a missing partial
provider is an error, surfaced only when errors are enabled. -/
def renderF (cfg : Cfg) : Nat → RJob → List Val → Str → RR
  | _, .many [], _, acc => .ok acc
  | _, .iter [] _, _, acc => .ok acc
  | 0, _, _, acc => .nofuel acc
  | fuel+1, .many (e :: rest), chain, acc =>
    (match renderF cfg fuel (.one e) chain acc with
      | .ok acc2 => renderF cfg fuel (.many rest) chain acc2
      | r => r)
  | fuel+1, .iter (c :: cs) es, chain, acc =>
    (match renderF cfg fuel (.many es) (c :: chain) acc with
      | .ok acc2 => renderF cfg fuel (.iter cs es) chain acc2
      | r => r)
  | fuel+1, .one e, chain, acc =>
    (match e with
      | .text s => .ok (acc ++ s)
      | .var name raw =>
        match lookup chain name cfg.errorOnMissing with
        | .error e => .err acc e
        | .ok .novalue => .ok acc
        | .ok v =>
          if raw then .ok (acc ++ (fmtSprint v).toList)
          else
            match valueString cfg v with
            | .error e => .err acc e
            | .ok s =>
              match cfg.outputMode with
              | .EscapeJSON => .ok (acc ++ JSONEscape s.toList)
              | .EscapeHTML => .ok (acc ++ htmlEscape s.toList)
              | .Raw => .ok (acc ++ s.toList)
      | .section n inv _ elems =>
        match lookup chain n cfg.errorOnMissing with
        | .error e => .err acc e
        | .ok value =>
          match chain with
          | [] => .panicked acc "runtime error: index out of range [0] with length 0"
          | context :: _ =>
            let empty := isEmptyVal value
            if (empty && !inv) || (!empty && inv) then .ok acc
            else if !inv then
              match value with
              | .list xs => renderF cfg fuel (.iter xs elems) chain acc
              | .map _ => renderF cfg fuel (.iter [value] elems) chain acc
              | .lam f =>
                match f (String.mk (getSectionText fuel elems)) with
                | .error e => .err acc e
                | .ok s => .ok (acc ++ s.toList)
              | _ => renderF cfg fuel (.iter [value] elems) chain acc
            else renderF cfg fuel (.iter [context] elems) chain acc
      | .part _ _ =>
        if cfg.errorOnMissing then
          .err acc (.custom "no partial provider configured")
        else .ok acc)

/-- `renderElement`. -/
def renderElement (cfg : Cfg) (fuel : Nat) (e : Elem) (chain : List Val)
    (acc : Str) : RR :=
  renderF cfg fuel (.one e) chain acc

/-- `renderTemplate` / `Frender` / `Render`: render the element list
against the chain built from the caller's context arguments, starting from
an empty buffer. -/
def renderTemplate (cfg : Cfg) (fuel : Nat) (elems : List Elem)
    (chain : List Val) : RR :=
  renderF cfg fuel (.many elems) chain []

/- ### The lexical reader (`readString` / `readText` / `readTag`,
mustache.go lines 259-396) -/

/-- Parser state: the input, the active delimiters, the cursor and the
1-based line counter (`Template.data/otag/ctag/p/curline`). -/
structure PSt where
  data : Str
  otag : Str
  ctag : Str
  p : Nat
  curline : Nat
deriving DecidableEq, Repr

/-- `readString`'s scan: starting at `i`, find the first occurrence of `s`;
`nl` accumulates the newlines passed (including one at the match position
itself, as the source counts `data[i]` before testing the match).  Returns
the end position of the match and the newline count, or `none` at end of
input.  Fuel-driven; the wrapper's fuel makes exhaustion unreachable. -/
def rsAux (data s : Str) : Nat → Nat → Nat → Option (Nat × Nat)
  | 0, _, _ => none
  | fuel+1, i, nl =>
    if i + s.length > data.length then none
    else
      let nl2 := if data.getD i 'x' = '\n' then nl + 1 else nl
      if s.isPrefixOf (data.drop i) then some (i + s.length, nl2)
      else rsAux data s fuel (i + 1) nl2

/-- Result of `readString`: either end of input (text = the rest, state
untouched) or a match (text = everything up to and including the match,
cursor and line advanced). -/
inductive RSRes where
  | eof (text : Str)
  | found (text : Str) (st2 : PSt)
deriving DecidableEq, Repr

/-- `readString`. -/
def readStr (st : PSt) (s : Str) : RSRes :=
  match rsAux st.data s (st.data.length + 2) st.p 0 with
  | none => .eof (st.data.drop st.p)
  | some (e, nl) =>
    .found ((st.data.drop st.p).take (e - st.p))
      { st with p := e, curline := st.curline + nl }

/-- The backward whitespace scan of `readText` (lines 311-316): from
position `i` walk left over spaces/tabs, not crossing `pPrev`; returns the
final `i` of the source's loop. -/
def backScan (data : Str) (pPrev : Nat) : Nat → Nat
  | 0 => 0
  | i+1 =>
    if pPrev < i + 1 && (data.getD i 'x' = ' ' || data.getD i 'x' = '\t') then
      backScan data pPrev i
    else i + 1

/-- Result of `readText`: at end of input the remaining text; otherwise the
text before the open delimiter, the same-line whitespace padding (empty
when the tag cannot be standalone), the may-standalone flag, and the state
just past the open delimiter. -/
inductive TextRes where
  | eof (text : Str)
  | go (text padding : Str) (mayStandalone : Bool) (st2 : PSt)
deriving DecidableEq, Repr

/-- `readText` (lines 300-333): find the next open delimiter; the backward
check succeeds when the characters before it on the line are only
spaces/tabs back to the start of input or a newline, in which case that
run is returned separately as padding. -/
def readText (st : PSt) : TextRes :=
  match readStr st st.otag with
  | .eof t => .eof t
  | .found _ st2 =>
    let start := st2.p - st.otag.length
    let i := backScan st.data st.p start
    if i = 0 || st.data.getD (i - 1) 'x' = '\n' then
      .go ((st.data.drop st.p).take (i - st.p))
        ((st.data.drop i).take (start - i)) true st2
    else
      .go ((st.data.drop st.p).take (start - st.p)) [] false st2

/-- The forward whitespace scan of `readTag` (lines 362-368): the first
position at or after `i` holding a character other than space/tab —
but if the scan reaches the end of input without finding one, the
source's `eow` keeps its initial value `p0` (the loop ends without its
`break` ever assigning). -/
def fwdScan (data : Str) (p0 : Nat) : Nat → Nat → Nat
  | 0, _ => p0
  | fuel+1, i =>
    if i < data.length then
      if data.getD i 'x' = ' ' || data.getD i 'x' = '\t' then
        fwdScan data p0 fuel (i + 1)
      else i
    else p0

/-- `eow` as computed by `readTag` from position `p`. -/
def fwdEow (data : Str) (p : Nat) : Nat :=
  fwdScan data p (data.length + 1) p

/-- `SkipWhitespaceTagTypes = "#^/<>=!"` (mustache.go line 105): the tag
first-characters whose tags may stand alone. -/
def SkipWhitespaceTagTypes : Str :=
  ['#', '^', '/', '<', '>', '=', '!']

/-- `readTag`'s result: the trimmed tag body and the standalone flag. -/
structure TagRes where
  tag : Str
  standalone : Bool
deriving DecidableEq, Repr

/-- Lines 370-390 of `readTag`: the standalone decision and the
accompanying cursor/line adjustment.  `standalone` is initialized `true`
and only examined when `mayStandalone` holds (the caller's padding is
empty otherwise, so the flag's initial value is harmless); a tag whose
first character is outside `SkipWhitespaceTagTypes` is never standalone;
otherwise the tag is standalone when, after the forward whitespace scan,
the input ends or a `\n` or `\r\n` follows, which is then consumed. -/
def readTagStandalone (st2 : PSt) (tag : Str) (mayStandalone : Bool) :
    Bool × PSt :=
  if !mayStandalone then (true, st2)
  else if !(SkipWhitespaceTagTypes.contains (tag.headD 'x')) then (false, st2)
  else
    let eow := fwdEow st2.data st2.p
    if eow = st2.data.length then (true, { st2 with p := eow })
    else if decide (eow < st2.data.length) && (st2.data.getD eow 'x' == '\n') then
      (true, { st2 with p := eow + 1, curline := st2.curline + 1 })
    else if decide (eow + 1 < st2.data.length) && (st2.data.getD eow 'x' == '\r')
        && (st2.data.getD (eow + 1) 'x' == '\n') then
      (true, { st2 with p := eow + 2, curline := st2.curline + 1 })
    else (false, st2)

/-- `readTag` (lines 340-396): read up to the close delimiter (through a
leading extra `}` for triple-brace tags), strip the close delimiter, trim
the body, reject an empty body, and decide standaloneness. -/
def readTag (st : PSt) (mayStandalone : Bool) :
    Except GoError (TagRes × PSt) :=
  let res :=
    if decide (st.p < st.data.length) && (st.data.getD st.p 'x' == lbrace) then
      readStr st (rbrace :: st.ctag)
    else readStr st st.ctag
  match res with
  | .eof _ => .error (.parseErr st.curline "unmatched open tag")
  | .found text st2 =>
    let text2 := text.take (text.length - st.ctag.length)
    let tag := trimSpace text2
    if tag = [] then .error (.parseErr st2.curline "empty tag")
    else
      let sa := readTagStandalone st2 tag mayStandalone
      .ok ({ tag := tag, standalone := sa.1 }, sa.2)

/- ### The parser (`parse` / `parseSection`, mustache.go lines 406-551) -/

/-- Go `strings.SplitN(s, " ", 2)` when it yields two parts: split at the
first space, `none` when there is no space. -/
def splitFirstSpace : Str → Option (Str × Str)
  | [] => none
  | c :: cs =>
    if c = ' ' then some ([], cs)
    else
      match splitFirstSpace cs with
      | some (a, b) => some (c :: a, b)
      | none => none

/-- The recursive-descent parser.  `parse` (top level) and `parseSection`
share their whole loop body except for three points keyed on `sec`
(`none` = top level, `some (name, inverted, startline)` = inside that
section): end of input is accepted at top level but is the
"Section ... has no closing tag" error — carrying the *recorded
startline* — inside a section; a close tag must match the open section
and is "unmatched close tag" at top level; and the malformed
delimiter-change message is capitalized at top level
(`Invalid meta tag` vs `invalid meta tag` — the source duplicates the
branch with the condition's disjuncts swapped, which does not change its
value).  A standalone tag suppresses the padding text element.  A
section-open tag records `curline` *after* the open tag was read (and its
standalone newline consumed).  A delimiter change whose body has no space
separator silently changes nothing; a well-formed one mutates the
delimiters carried in the state for the remainder of the parse.  A
`{`-led tag lacking a trailing `}` is silently dropped.  The `forceRaw`
field is always `false` in `CompileString`, so the default branch emits a
non-raw variable. -/
def parseF : Nat → PSt → Option (Str × Bool × Nat) → List Elem →
    Except GoError (List Elem × PSt)
  | 0, _, _, _ => .error (.custom "out of fuel")
  | fuel+1, st, sec, acc =>
    match readText st with
    | .eof t =>
      match sec with
      | none => .ok (acc ++ [.text t], st)
      | some (sname, _, sline) =>
        .error (.parseErr sline
          ("Section " ++ String.mk sname ++ " has no closing tag"))
    | .go text padding mayStandalone st1 =>
      let acc1 := acc ++ [.text text]
      match readTag st1 mayStandalone with
      | .error e => .error e
      | .ok (tres, st2) =>
        let acc2 := if !tres.standalone then acc1 ++ [.text padding] else acc1
        let tag := tres.tag
        let c := tag.headD 'x'
        if c = '!' then parseF fuel st2 sec acc2
        else if c = '#' || c = '^' then
          let name := trimSpace tag.tail
          match parseF fuel st2 (some (name, c = '^', st2.curline)) [] with
          | .error e => .error e
          | .ok (selems, st3) =>
            parseF fuel st3 sec
              (acc2 ++ [.section name (c = '^') st2.curline selems])
        else if c = '/' then
          match sec with
          | none => .error (.parseErr st2.curline "unmatched close tag")
          | some (sname, _, _) =>
            let name := trimSpace tag.tail
            if name = sname then .ok (acc2, st2)
            else
              .error (.parseErr st2.curline
                ("interleaved closing tag: " ++ String.mk name))
        else if c = '>' then
          let name := trimSpace tag.tail
          parseF fuel st2 sec (acc2 ++ [.part name padding])
        else if c = '=' then
          if tag.getLastD 'x' ≠ '=' || tag.length < 2 then
            .error (.parseErr st2.curline
              (match sec with
               | none => "Invalid meta tag"
               | some _ => "invalid meta tag"))
          else
            let body := trimSpace ((tag.drop 1).take (tag.length - 2))
            match splitFirstSpace body with
            | some (a, b) => parseF fuel { st2 with otag := a, ctag := b } sec acc2
            | none => parseF fuel st2 sec acc2
        else if c = lbrace then
          if tag.getLastD 'x' = rbrace then
            let name := trimSpace ((tag.drop 1).take (tag.length - 2))
            parseF fuel st2 sec (acc2 ++ [.var name true])
          else parseF fuel st2 sec acc2
        else if c = '&' then
          parseF fuel st2 sec (acc2 ++ [.var (trimSpace tag.tail) true])
        else
          parseF fuel st2 sec (acc2 ++ [.var tag false])

/-- The initial parser state of `CompileString`: default `{{` `}}`
delimiters, cursor 0, line 1. -/
def initPSt (data : String) : PSt :=
  { data := data.toList, otag := [lbrace, lbrace], ctag := [rbrace, rbrace],
    p := 0, curline := 1 }

/-- `CompileString`: parse a template string into its element list.  Every
parser step first consumes a (nonempty-delimiter) tag, so
`2 * length + 4` fuel strictly exceeds what any run can use. -/
def parseTemplate (data : String) : Except GoError (List Elem) :=
  match parseF (2 * data.length + 4) (initPSt data) none [] with
  | .error e => .error e
  | .ok (elems, _) => .ok elems

/-- Join name segments with dots: the inverse of the splitting performed by
the dotted-name recursion. -/
def joinDots : List Str → Str
  | [] => []
  | [s] => s
  | s :: rest => s ++ '.' :: joinDots rest

/-- Modelled from the spec's words for claim C2 (refinement target, not a
transcription of the source): resolve the first segment against the full
chain, then resolve the remaining segments against a singleton chain
containing only the intermediate result, recursively segment by segment.
The `[]` case is vacuous (segment lists are nonempty). -/
def specResolveSegs (eom : Bool) : List Val → List Str → Except GoError Val
  | chain, [] => singleLookup chain [] eom
  | chain, [s] => singleLookup chain s eom
  | chain, s :: rest =>
    match singleLookup chain s eom with
    | .error e => .error e
    | .ok v => specResolveSegs eom [v] rest

/-- The forward whitespace check of `readTag` (lines 375-388): after the
forward scan, either the input ends, or a `\n` follows, or a `\r\n`
follows. -/
def fwdCheckOk (data : Str) (eow : Nat) : Prop :=
  eow = data.length
  ∨ (eow < data.length ∧ data.getD eow 'x' = '\n')
  ∨ (eow + 1 < data.length ∧ data.getD eow 'x' = '\r' ∧ data.getD (eow + 1) 'x' = '\n')

/-- Children of the section in `{{#w}}{{{B}}}{{/w}}`: a raw
(triple-brace) variable, as produced by the parser. -/
def rawChildren : List Elem := [.text [], .var ['B'] true, .text []]

/-- Context binding `B` to a string needing HTML escaping. -/
def chainRaw : List Val := [.map [("B", .str "5 > 2".toList)]]

/-- Children of the section `w` in
`{{#w}}A\n {{!c}}{{#s}}\nB{{/s}}{{/w}}`, as produced by the parser: the
comment was not standalone (a tag follows on its line), so its padding
survives as literal text, and the inner section-open was not standalone
(the character before it is the comment's close delimiter), so its
trailing newline survives inside the inner section. -/
def wsChildren : List Elem :=
  [.text "A\n".toList, .text [' '], .text [],
   .section ['s'] false 2 [.text "\nB".toList], .text []]

/-- Context making the inner section `s` truthy. -/
def chainWs : List Val := [.map [("s", .bool true)]]

/-- Single-line text/variable/section children for the round-trip check. -/
def mixedChildren : List Elem :=
  [.text ['a'], .var ['B'] false, .section ['s'] false 1 [.text ['x']]]

/-- Context for `mixedChildren`. -/
def chainM : List Val := [.map [("B", .str "b!".toList), ("s", .bool true)]]

/- ### Support lemmas -/

/-- The sixteen lowercase hexadecimal digit characters. -/
def lowerHexDigits : Str := "0123456789abcdef".toList

theorem hexDigit_mem (k : Nat) (hk : k < 16) : hexDigit k ∈ lowerHexDigits := by
  interval_cases k <;> decide

theorem hex4_digits (n : Nat) : ∀ d ∈ hex4 n, d ∈ lowerHexDigits := by
  intro d hd
  simp only [hex4, List.mem_cons, List.not_mem_nil, or_false] at hd
  rcases hd with rfl | rfl | rfl | rfl <;>
    exact hexDigit_mem _ (Nat.mod_lt _ (by omega))

/- ### Claim theorems -/

/-- C8: JSON-mode escaping writes `"` and `\` prefixed by a backslash, maps
newline, backspace, form feed, carriage return and tab to their
two-character short escapes, maps every other Unicode control character to
`\u` followed by exactly four lowercase hexadecimal digits, and passes
every other character (including non-ASCII) through unchanged; the full
string is escaped character by character. -/
theorem JSONEscapeSpec (r : Char) :
    (∀ s : Str, JSONEscape s = (s.map jsonEscapeChar).flatten)
    ∧ ((r = '"' ∨ r = '\\') → jsonEscapeChar r = ['\\', r])
    ∧ (jsonEscapeChar '\n' = ['\\', 'n'] ∧ jsonEscapeChar (Char.ofNat 8) = ['\\', 'b']
        ∧ jsonEscapeChar (Char.ofNat 12) = ['\\', 'f'] ∧ jsonEscapeChar '\r' = ['\\', 'r']
        ∧ jsonEscapeChar '\t' = ['\\', 't'])
    ∧ (isControlGo r = true →
        r ∉ (['\n', Char.ofNat 8, Char.ofNat 12, '\r', '\t'] : List Char) →
        jsonEscapeChar r = '\\' :: 'u' :: hex4 r.toNat
          ∧ (hex4 r.toNat).length = 4
          ∧ ∀ d ∈ hex4 r.toNat, d ∈ lowerHexDigits)
    ∧ (isControlGo r = false → ¬(r = '"' ∨ r = '\\') → jsonEscapeChar r = [r]) := by
  refine ⟨fun _ => rfl, ?_, by decide, ?_, ?_⟩
  · rintro (rfl | rfl) <;> decide
  · intro hctl hmem
    have hq : ¬(r = '"') := by rintro rfl; simp [isControlGo] at hctl
    have hb : ¬(r = '\\') := by rintro rfl; simp [isControlGo] at hctl
    have h1 : ¬(r = '\n') := by intro h; exact hmem (by simp [h])
    have h2 : ¬(r = Char.ofNat 8) := by intro h; exact hmem (by simp [h])
    have h3 : ¬(r = Char.ofNat 12) := by intro h; exact hmem (by simp [h])
    have h4 : ¬(r = '\r') := by intro h; exact hmem (by simp [h])
    have h5 : ¬(r = '\t') := by intro h; exact hmem (by simp [h])
    refine ⟨?_, rfl, hex4_digits _⟩
    simp [jsonEscapeChar, hq, hb, h1, h2, h3, h4, h5, hctl]
  · intro hctl hne
    have hq : ¬(r = '"') := fun h => hne (Or.inl h)
    have hb : ¬(r = '\\') := fun h => hne (Or.inr h)
    have h1 : ¬(r = '\n') := by rintro rfl; simp [isControlGo] at hctl
    have h2 : ¬(r = Char.ofNat 8) := by rintro rfl; simp [isControlGo] at hctl
    have h3 : ¬(r = Char.ofNat 12) := by rintro rfl; simp [isControlGo] at hctl
    have h4 : ¬(r = '\r') := by rintro rfl; simp [isControlGo] at hctl
    have h5 : ¬(r = '\t') := by rintro rfl; simp [isControlGo] at hctl
    simp [jsonEscapeChar, hq, hb, h1, h2, h3, h4, h5, hctl]

/-- Witness for C8 at concrete characters: U+0001 escapes to `\u0001`,
`é` passes through, `"` is backslash-prefixed. -/
theorem JSONEscapeSpec_witness :
    jsonEscapeChar (Char.ofNat 1) = ['\\', 'u', '0', '0', '0', '1']
      ∧ jsonEscapeChar 'é' = ['é'] ∧ jsonEscapeChar '"' = ['\\', '"'] := by
  refine ⟨?_, ?_, ?_⟩
  · exact ((JSONEscapeSpec (Char.ofNat 1)).2.2.2.1 (by decide) (by decide)).1.trans (by decide)
  · exact (JSONEscapeSpec 'é').2.2.2.2 (by decide) (by decide)
  · exact (JSONEscapeSpec '"').2.1 (Or.inl rfl)

theorem countDot_eq_zero {s : Str} (h : '.' ∉ s) : countDot s = 0 := by
  simpa [countDot] using List.count_eq_zero.mpr h

theorem renderF_iter_nil (cfg : Cfg) (fuel : Nat) (es : List Elem)
    (chain : List Val) (acc : Str) :
    renderF cfg fuel (.iter [] es) chain acc = .ok acc := by
  cases fuel <;> rfl

theorem renderF_many_nil (cfg : Cfg) (fuel : Nat) (chain : List Val) (acc : Str) :
    renderF cfg fuel (.many []) chain acc = .ok acc := by
  cases fuel <;> rfl

/-- C1: a variable tag whose (dot-free) name resolves against no entry of
the chain writes nothing and returns no error when `errorOnMissing` is
disabled; when enabled, the lookup fails with a `missing variable` error
naming the unresolved name and the render aborts with it (no later element
is processed).  Two conjuncts replay the spec scenario through the full
compile-and-render pipeline (`{{dne}}` against `{Name:"Mike"}`), and the
last conjunct covers arbitrary — including dotted — names under the
disabled policy: whenever resolution yields the invalid sentinel, the
variable writes nothing and returns no error. -/
theorem missingVariablePolicy (mode : EscapeMode)
    (vs : Option (Val → Except GoError String)) (chain : List Val) (name : Str)
    (raw : Bool) (rest : List Elem) (acc : Str) (fuel : Nat)
    (hdot : '.' ∉ name) (hmiss : lookupChainF chain name = none) :
    renderF ⟨mode, false, vs⟩ (fuel + 1) (.one (.var name raw)) chain acc = .ok acc
    ∧ renderF ⟨mode, true, vs⟩ (fuel + 1) (.one (.var name raw)) chain acc
        = .err acc (.missingVariable (String.mk name))
    ∧ renderF ⟨mode, true, vs⟩ (fuel + 2) (.many (.var name raw :: rest)) chain acc
        = .err acc (.missingVariable (String.mk name))
    ∧ (parseTemplate "\x7b\x7bdne\x7d\x7d").map
        (fun elems => renderTemplate ⟨.EscapeHTML, false, none⟩ 30 elems
          [.map [("Name", .str "Mike".toList)]]) = .ok (.ok [])
    ∧ (parseTemplate "\x7b\x7bdne\x7d\x7d").map
        (fun elems => renderTemplate ⟨.EscapeHTML, true, none⟩ 30 elems
          [.map [("Name", .str "Mike".toList)]])
        = .ok (.err [] (.missingVariable "dne"))
    ∧ (∀ nm : Str, lookup chain nm false = .ok .novalue →
        renderF ⟨mode, false, vs⟩ (fuel + 1) (.one (.var nm raw)) chain acc
          = .ok acc) := by
  have hc : countDot name = 0 := countDot_eq_zero hdot
  have h1 : renderF ⟨mode, false, vs⟩ (fuel + 1) (.one (.var name raw)) chain acc
      = .ok acc := by
    simp [renderF, lookup, hc, lookupD, singleLookup, hmiss]
  have h2 : renderF ⟨mode, true, vs⟩ (fuel + 1) (.one (.var name raw)) chain acc
      = .err acc (.missingVariable (String.mk name)) := by
    simp [renderF, lookup, hc, lookupD, singleLookup, hmiss]
  refine ⟨h1, h2, ?_, by rfl, by rfl, ?_⟩
  · show (match renderF ⟨mode, true, vs⟩ (fuel + 1) (.one (.var name raw)) chain acc with
        | .ok acc2 => renderF ⟨mode, true, vs⟩ (fuel + 1) (.many rest) chain acc2
        | r => r) = .err acc (.missingVariable (String.mk name))
    rw [h2]
  · intro nm hnm
    simp [renderF, hnm]

/-- Witness for C1: the scenario data, `dne` against `{Name:"Mike"}`. -/
theorem missingVariablePolicy_witness :
    renderF ⟨.EscapeHTML, false, none⟩ 10 (.one (.var "dne".toList false))
        [.map [("Name", .str "Mike".toList)]] [] = .ok []
    ∧ renderF ⟨.EscapeHTML, true, none⟩ 10 (.one (.var "dne".toList false))
        [.map [("Name", .str "Mike".toList)]] []
        = .err [] (.missingVariable "dne") := by
  have h := missingVariablePolicy .EscapeHTML none
    [.map [("Name", .str "Mike".toList)]] "dne".toList false [] [] 9
    (by decide) (by rfl)
  exact ⟨h.1, h.2.1⟩

/-- C3: for section evaluation a string counts as empty exactly when
trimming surrounding whitespace leaves nothing; a non-inverted section
whose condition resolves to an all-whitespace string renders nothing, and
one resolving to a string with any non-whitespace character renders its
children once with that string prepended to the chain.  The final two
conjuncts replay the boundary through the pipeline: `{{#c}}X{{/c}}` is
skipped for `c = "  \t "` and rendered for `c = " x "`. -/
theorem sectionStringEmptiness (cfg : Cfg) (c : Val) (cs : List Val) (n : Str)
    (sl : Nat) (elems : List Elem) (s : Str) (acc : Str) (fuel : Nat)
    (hl : lookup (c :: cs) n cfg.errorOnMissing = .ok (.str s)) :
    (isEmptyVal (.str s) = true ↔ trimSpace s = [])
    ∧ (trimSpace s = [] →
        renderF cfg (fuel + 1) (.one (.section n false sl elems)) (c :: cs) acc
          = .ok acc)
    ∧ (trimSpace s ≠ [] →
        renderF cfg (fuel + 2) (.one (.section n false sl elems)) (c :: cs) acc
          = renderF cfg fuel (.many elems) (.str s :: c :: cs) acc)
    ∧ (parseTemplate "\x7b\x7b#c\x7d\x7dX\x7b\x7b/c\x7d\x7d").map
        (fun es => renderTemplate ⟨.EscapeHTML, false, none⟩ 30 es
          [.map [("c", .str "  \t ".toList)]]) = .ok (.ok [])
    ∧ (parseTemplate "\x7b\x7b#c\x7d\x7dX\x7b\x7b/c\x7d\x7d").map
        (fun es => renderTemplate ⟨.EscapeHTML, false, none⟩ 30 es
          [.map [("c", .str " x ".toList)]]) = .ok (.ok ['X']) := by
  refine ⟨by simp [isEmptyVal], ?_, ?_, by rfl, by rfl⟩
  · intro hts
    simp [renderF, hl, isEmptyVal, hts]
  · intro hts
    have : renderF cfg (fuel + 2) (.one (.section n false sl elems)) (c :: cs) acc
        = renderF cfg (fuel + 1) (.iter [.str s] elems) (c :: cs) acc := by
      simp [renderF, hl, isEmptyVal, hts]
    rw [this]
    show (match renderF cfg fuel (.many elems) (.str s :: c :: cs) acc with
        | .ok acc2 => renderF cfg fuel (.iter [] elems) (c :: cs) acc2
        | r => r) = renderF cfg fuel (.many elems) (.str s :: c :: cs) acc
    cases renderF cfg fuel (.many elems) (.str s :: c :: cs) acc <;>
      simp [renderF_iter_nil]

/-- Witness for C3: `c` bound to an all-whitespace and to a
non-whitespace string. -/
theorem sectionStringEmptiness_witness :
    renderF ⟨.EscapeHTML, false, none⟩ 11 (.one (.section ['c'] false 1 [.text ['X']]))
        [.map [("c", .str "  \t ".toList)]] [] = .ok []
    ∧ renderF ⟨.EscapeHTML, false, none⟩ 12 (.one (.section ['c'] false 1 [.text ['X']]))
        [.map [("c", .str " x ".toList)]] []
        = renderF ⟨.EscapeHTML, false, none⟩ 10 (.many [.text ['X']])
            [.str " x ".toList, .map [("c", .str " x ".toList)]] [] := by
  refine ⟨?_, ?_⟩
  · exact (sectionStringEmptiness ⟨.EscapeHTML, false, none⟩
      (.map [("c", .str "  \t ".toList)]) [] ['c'] 1 [.text ['X']]
      "  \t ".toList [] 10 (by rfl)).2.1 (by decide)
  · exact (sectionStringEmptiness ⟨.EscapeHTML, false, none⟩
      (.map [("c", .str " x ".toList)]) [] ['c'] 1 [.text ['X']]
      " x ".toList [] 10 (by rfl)).2.2.1 (by decide)

/-- C4: when the callable resolved for a non-inverted section returns an
error, rendering stops at once and that error is returned to the caller,
for any `errorOnMissing` setting (the configuration is arbitrary here):
the callable's string result is not written (the buffer still holds
exactly `acc`) and no element after the section is processed (`after` is
arbitrary and unreached).  The last conjunct replays the source's
`TestLambdaError` scenario through the pipeline: output stops at
`stop_at_error.` and the callable's error comes back. -/
theorem lambdaErrorAborts (cfg : Cfg) (c : Val) (cs : List Val) (n : Str)
    (sl : Nat) (elems : List Elem) (f : String → Except GoError String)
    (e : GoError) (after : List Elem) (acc : Str) (fuel : Nat)
    (hl : lookup (c :: cs) n cfg.errorOnMissing = .ok (.lam f))
    (hf : f (String.mk (getSectionText fuel elems)) = .error e) :
    renderF cfg (fuel + 1) (.one (.section n false sl elems)) (c :: cs) acc
      = .err acc e
    ∧ renderF cfg (fuel + 2) (.many (.section n false sl elems :: after)) (c :: cs) acc
      = .err acc e
    ∧ (parseTemplate
        "stop_at_error.\x7b\x7b#lambda\x7d\x7d\x7b\x7b/lambda\x7d\x7d.never_here").map
        (fun es => renderTemplate ⟨.EscapeHTML, false, none⟩ 30 es
          [.map [("lambda", .lam (fun _ => .error (.custom "test err")))]])
        = .ok (.err "stop_at_error.".toList (.custom "test err")) := by
  have h1 : renderF cfg (fuel + 1) (.one (.section n false sl elems)) (c :: cs) acc
      = .err acc e := by
    simp [renderF, hl, isEmptyVal, hf]
  refine ⟨h1, ?_, by rfl⟩
  show (match renderF cfg (fuel + 1) (.one (.section n false sl elems)) (c :: cs) acc with
      | .ok acc2 => renderF cfg (fuel + 1) (.many after) (c :: cs) acc2
      | r => r) = .err acc e
  rw [h1]

/-- Witness for C4: a callable returning `test err` under a section with
no children, with a trailing element that is never reached. -/
theorem lambdaErrorAborts_witness :
    renderF ⟨.EscapeHTML, false, none⟩ 12
        (.many [.section "lambda".toList false 1 [], .text "X".toList])
        [.map [("lambda", .lam (fun _ => .error (.custom "test err")))]] []
      = .err [] (.custom "test err") := by
  exact (lambdaErrorAborts ⟨.EscapeHTML, false, none⟩
    (.map [("lambda", .lam (fun _ => .error (.custom "test err")))]) []
    "lambda".toList 1 [] (fun _ => .error (.custom "test err"))
    (.custom "test err") [.text "X".toList] [] 10 (by rfl) (by rfl)).2.1

theorem lookupD_nil_novalue (d : Nat) :
    ∀ name : Str, lookupD false d [] name = .ok .novalue
      ∧ lookupD false d [.novalue] name = .ok .novalue := by
  induction d with
  | zero => intro name; exact ⟨rfl, rfl⟩
  | succ d ih =>
    intro name
    have h2 : ∀ chain : List Val, (chain = [] ∨ chain = [.novalue]) →
        lookupD false (d + 1) chain name = .ok .novalue := by
      intro chain hch
      have hs : ∀ m : Str, singleLookup chain m false = .ok .novalue := by
        intro m; rcases hch with rfl | rfl <;> rfl
      rw [lookupD]
      by_cases hcond : (name = ['.'] || !(name.contains '.')) = true
      · rw [if_pos hcond]; exact hs name
      · rw [if_neg hcond]
        simp only [hs]
        exact (ih _).2
    exact ⟨h2 [] (Or.inl rfl), h2 [.novalue] (Or.inr rfl)⟩

/-- C10: rendering a section element reads the front chain entry
unconditionally, before the emptiness/inversion test, so rendering any
section against an empty context chain under the default missing-variable
policy panics — for every name (resolvable or not), inversion flag and
child list — instead of rendering the section as empty.  The last
conjunct replays it through the pipeline: compiling `{{#a}}x{{/a}}` and
rendering it with zero context arguments panics. -/
theorem sectionEmptyChainPanics (cfg : Cfg) (n : Str) (inv : Bool) (sl : Nat)
    (elems : List Elem) (acc : Str) (fuel : Nat)
    (hpol : cfg.errorOnMissing = false) :
    renderF cfg (fuel + 1) (.one (.section n inv sl elems)) [] acc
      = .panicked acc "runtime error: index out of range [0] with length 0"
    ∧ (parseTemplate "\x7b\x7b#a\x7d\x7dx\x7b\x7b/a\x7d\x7d").map
        (fun es => renderTemplate ⟨.EscapeHTML, false, none⟩ 30 es [])
        = .ok (.panicked [] "runtime error: index out of range [0] with length 0") := by
  refine ⟨?_, by rfl⟩
  have hlk : lookup [] n cfg.errorOnMissing = .ok .novalue := by
    rw [hpol]; exact (lookupD_nil_novalue (countDot n) n).1
  simp [renderF, hlk]

/-- Witness for C10: a section over an unresolvable name with empty chain. -/
theorem sectionEmptyChainPanics_witness :
    renderF ⟨.EscapeHTML, false, none⟩ 10
        (.one (.section "a".toList false 1 [.text ['x']])) [] []
      = .panicked [] "runtime error: index out of range [0] with length 0" :=
  (sectionEmptyChainPanics ⟨.EscapeHTML, false, none⟩ "a".toList false 1
    [.text ['x']] [] 9 rfl).1

theorem takeWhile_no_dot (s t : Str) (h : ∀ c ∈ s, c ≠ '.') :
    (s ++ '.' :: t).takeWhile (fun c => c ≠ '.') = s := by
  induction s with
  | nil => simp [List.takeWhile]
  | cons c cs ih =>
    have hc : c ≠ '.' := h c (by simp)
    simp only [List.cons_append, List.takeWhile_cons]
    simp only [hc, decide_not, decide_eq_false hc, Bool.not_false, if_true]
    simpa using ih (fun x hx => h x (by simp [hx]))

theorem dropWhile_no_dot (s t : Str) (h : ∀ c ∈ s, c ≠ '.') :
    (s ++ '.' :: t).dropWhile (fun c => c ≠ '.') = '.' :: t := by
  induction s with
  | nil => simp [List.dropWhile]
  | cons c cs ih =>
    have hc : c ≠ '.' := h c (by simp)
    simp only [List.cons_append, List.dropWhile_cons]
    simp only [hc, decide_not, decide_eq_false hc, Bool.not_false, if_true]
    simpa using ih (fun x hx => h x (by simp [hx]))

theorem lookup_joinDots (eom : Bool) : ∀ (segs : List Str) (chain : List Val),
    segs ≠ [] → (∀ s ∈ segs, s ≠ [] ∧ '.' ∉ s) →
    lookup chain (joinDots segs) eom = specResolveSegs eom chain segs := by
  intro segs
  induction segs with
  | nil => intro chain h _; exact absurd rfl h
  | cons s rest ih =>
    intro chain _ hseg
    have hs := hseg s (by simp)
    cases rest with
    | nil =>
      have h0 : countDot s = 0 := countDot_eq_zero hs.2
      show lookup chain s eom = specResolveSegs eom chain [s]
      rw [lookup, h0]
      rfl
    | cons s2 rest2 =>
      have hjoin : joinDots (s :: s2 :: rest2) = s ++ '.' :: joinDots (s2 :: rest2) :=
        rfl
      have hcnt : countDot (s ++ '.' :: joinDots (s2 :: rest2))
          = countDot (joinDots (s2 :: rest2)) + 1 := by
        have h0 : countDot s = 0 := countDot_eq_zero hs.2
        simp only [countDot] at h0 ⊢
        simp [List.count_append, List.count_cons, h0]
      have hneq : ¬(s ++ '.' :: joinDots (s2 :: rest2) = ['.']) := by
        intro heq
        have hlen := congrArg List.length heq
        simp [List.length_append] at hlen
        exact hs.1 (List.length_eq_zero.mp (by omega))
      have hcontains : (s ++ '.' :: joinDots (s2 :: rest2)).contains '.' = true :=
        List.elem_eq_true_of_mem (by simp)
      have hnodot : ∀ c ∈ s, c ≠ '.' := fun c hc hceq => hs.2 (hceq ▸ hc)
      show lookup chain (joinDots (s :: s2 :: rest2)) eom = _
      rw [hjoin, lookup, hcnt, lookupD]
      have hcond : ¬((decide (s ++ '.' :: joinDots (s2 :: rest2) = ['.'])
          || !((s ++ '.' :: joinDots (s2 :: rest2)).contains '.')) = true) := by
        simp [hneq, hcontains]
      rw [if_neg hcond]
      simp only [takeWhile_no_dot _ _ hnodot, dropWhile_no_dot _ _ hnodot,
        List.tail_cons]
      cases hsl : singleLookup chain s eom with
      | error e => simp [specResolveSegs, hsl]
      | ok v =>
        have hrec := ih [v] (by simp)
          (fun x hx => hseg x (List.mem_cons_of_mem _ hx))
        rw [lookup] at hrec
        simp only [specResolveSegs, hsl]
        exact hrec

/-- C2: for every dotted name `a.b.....z` (given as its nonempty, dot-free,
nonempty-segment decomposition; the single name `.` is excluded because a
segment cannot be `.`), `lookup` resolves the first segment against the
full chain and the remaining segments against a singleton chain holding
the intermediate result, recursively segment by segment — the source's
`SplitN`-based recursion coincides with the spec-worded resolver
`specResolveSegs`.  The second conjunct replays the scenario:
`{{a.b.c.d.e.name}}` against five nested string-keyed maps whose innermost
`name` is `"Phil"` renders `Phil`. -/
theorem dottedLookupRefinement (chain : List Val) (eom : Bool)
    (segs : List Str) (hne : segs ≠ [])
    (hseg : ∀ s ∈ segs, s ≠ [] ∧ '.' ∉ s) :
    lookup chain (joinDots segs) eom = specResolveSegs eom chain segs
    ∧ (parseTemplate "\x7b\x7ba.b.c.d.e.name\x7d\x7d").map
        (fun es => renderTemplate ⟨.EscapeHTML, false, none⟩ 30 es
          [.map [("a", .map [("b", .map [("c", .map [("d", .map [("e",
            .map [("name", .str "Phil".toList)])])])])])]])
        = .ok (.ok "Phil".toList) :=
  ⟨lookup_joinDots eom segs chain hne hseg, by rfl⟩

/-- Witness for C2: the two-segment name `a.b` against a nested map. -/
theorem dottedLookupRefinement_witness :
    lookup [.map [("a", .map [("b", .str "v".toList)])]]
        (joinDots ["a".toList, "b".toList]) false
      = specResolveSegs false [.map [("a", .map [("b", .str "v".toList)])]]
          ["a".toList, "b".toList] :=
  (dottedLookupRefinement [.map [("a", .map [("b", .str "v".toList)])]] false
    ["a".toList, "b".toList] (by simp) (by decide)).1

/-- C5 (counterexample): a tag whose first character is `<` — parsed as a
plain *variable* tag by the default branch — is nevertheless given the
standalone treatment, because `SkipWhitespaceTagTypes = "#^/<>=!"` also
contains `<`, which the claim's list `! # ^ / > =` omits.  In
` {{<x}}\nR` (state just past the tag body, cursor 7 at the `\n`), the
standalone decision returns `true`, consuming the newline and bumping the
line counter; the compiled template elides the leading padding and the
trailing newline around the *variable* element `<x`, where the claim
requires them to be preserved. -/
theorem standaloneLtCounterexample :
    readTagStandalone
        ⟨" \x7b\x7b<x\x7d\x7d\nR".toList, [lbrace, lbrace], [rbrace, rbrace], 7, 1⟩
        ['<', 'x'] true
      = (true, ⟨" \x7b\x7b<x\x7d\x7d\nR".toList, [lbrace, lbrace], [rbrace, rbrace], 8, 2⟩)
    ∧ '<' ∉ (['!', '#', '^', '/', '>', '='] : List Char)
    ∧ parseTemplate " \x7b\x7b<x\x7d\x7d\nR"
        = .ok [.text [], .var ['<', 'x'] false, .text ['R']] :=
  ⟨by decide, by decide, by rfl⟩

/-- C5 (amended): a tag that may stand alone (backward check passed) is
standalone exactly when its first character is in `SkipWhitespaceTagTypes`
— the source's `"#^/<>=!"`, i.e. the claim's set *plus* `<` — and the
forward whitespace check succeeds; when the backward check failed the
standalone machinery touches nothing (the returned flag is the
initialization value `true`, but the state is unchanged and the caller's
padding is empty, so nothing is elided or consumed).  Variable tags are
therefore never standalone except those whose name begins with `<`. -/
theorem standaloneCondition (st : PSt) (tag : Str) :
    ((readTagStandalone st tag true).1 = true ↔
      (tag.headD 'x' ∈ SkipWhitespaceTagTypes
        ∧ fwdCheckOk st.data (fwdEow st.data st.p)))
    ∧ readTagStandalone st tag false = (true, st)
    ∧ SkipWhitespaceTagTypes = ['#', '^', '/', '<', '>', '=', '!'] := by
  refine ⟨?_, rfl, rfl⟩
  by_cases hmem : tag.headD 'x' ∈ SkipWhitespaceTagTypes
  · have hc : SkipWhitespaceTagTypes.contains (tag.headD 'x') = true :=
      List.elem_eq_true_of_mem hmem
    rw [readTagStandalone, if_neg (by decide), if_neg (by rw [hc]; decide)]
    by_cases h1 : fwdEow st.data st.p = st.data.length
    · rw [if_pos h1]
      exact iff_of_true rfl ⟨hmem, Or.inl h1⟩
    · rw [if_neg h1]
      by_cases h2 : fwdEow st.data st.p < st.data.length
          ∧ st.data.getD (fwdEow st.data st.p) 'x' = '\n'
      · have hb2 : (decide (fwdEow st.data st.p < st.data.length)
            && (st.data.getD (fwdEow st.data st.p) 'x' == '\n')) = true := by
          simp only [Bool.and_eq_true, decide_eq_true_eq, beq_iff_eq]
          exact h2
        rw [if_pos hb2]
        exact iff_of_true rfl ⟨hmem, Or.inr (Or.inl h2)⟩
      · have hb2 : ¬((decide (fwdEow st.data st.p < st.data.length)
            && (st.data.getD (fwdEow st.data st.p) 'x' == '\n')) = true) := by
          simp only [Bool.and_eq_true, decide_eq_true_eq, beq_iff_eq]
          exact h2
        rw [if_neg hb2]
        by_cases h3 : fwdEow st.data st.p + 1 < st.data.length
            ∧ st.data.getD (fwdEow st.data st.p) 'x' = '\x0d'
            ∧ st.data.getD (fwdEow st.data st.p + 1) 'x' = '\n'
        · have hb3 : (decide (fwdEow st.data st.p + 1 < st.data.length)
              && (st.data.getD (fwdEow st.data st.p) 'x' == '\x0d')
              && (st.data.getD (fwdEow st.data st.p + 1) 'x' == '\n')) = true := by
            simp only [Bool.and_eq_true, decide_eq_true_eq, beq_iff_eq]
            exact ⟨⟨h3.1, h3.2.1⟩, h3.2.2⟩
          rw [if_pos hb3]
          exact iff_of_true rfl ⟨hmem, Or.inr (Or.inr h3)⟩
        · have hb3 : ¬((decide (fwdEow st.data st.p + 1 < st.data.length)
              && (st.data.getD (fwdEow st.data st.p) 'x' == '\x0d')
              && (st.data.getD (fwdEow st.data st.p + 1) 'x' == '\n')) = true) := by
            simp only [Bool.and_eq_true, decide_eq_true_eq, beq_iff_eq]
            exact fun hh => h3 ⟨hh.1.1, hh.1.2, hh.2⟩
          rw [if_neg hb3]
          refine iff_of_false (by simp) ?_
          rintro ⟨-, hf | hf | hf⟩
          · exact h1 hf
          · exact h2 hf
          · exact h3 hf
  · have hc : SkipWhitespaceTagTypes.contains (tag.headD 'x') = false := by
      rcases h : SkipWhitespaceTagTypes.contains (tag.headD 'x') with _ | _
      · rfl
      · exact absurd (List.mem_of_elem_eq_true h) hmem
    rw [readTagStandalone, if_neg (by decide), if_pos (by rw [hc]; decide)]
    exact iff_of_false (by simp) (fun h => hmem h.1)

/-- C6 (counterexample): the delimiter-change tag `{{=ab=}}` is malformed
as a `NEWOPEN NEWCLOSE` pair (its body has no space separator), yet
compilation succeeds and returns a template — `SplitN` yields a single
part and the directive is silently ignored — where the claim requires
every malformed directive to abort compilation with a parse error. -/
theorem metaTagCounterexample :
    parseTemplate "\x7b\x7b=ab=\x7d\x7d" = .ok [.text [], .text []]
    ∧ parseTemplate "\x7b\x7b=ab=\x7d\x7dxx"
        = .ok [.text [], .text [], .text "xx".toList] :=
  ⟨by rfl, by rfl⟩

/-- C6 (amended): for a delimiter-change tag, only a body that does not
end in `=` (or is shorter than two characters) fails compilation, with a
parse error carrying the 1-based current line and no template returned; a
body whose trimmed interior has a space separator mutates the active
delimiters for the remainder of the parse; a body with no space separator
is silently ignored, with no error and no mutation.  The first three
conjuncts state the three outcomes at an arbitrary parser step; the last
three replay them through the pipeline (`{{=ab}}` on lines 1 and 2, and a
`{{=<% %>=}}` change under which `<%x%>` is subsequently read as a
variable tag). -/
theorem metaTagBehavior (fuel : Nat) (st st1 st2 : PSt)
    (sec : Option (Str × Bool × Nat)) (acc : List Elem) (text padding : Str)
    (ms : Bool) (tres : TagRes)
    (h1 : readText st = .go text padding ms st1)
    (h2 : readTag st1 ms = .ok (tres, st2))
    (h3 : tres.tag.headD 'x' = '=') :
    ((tres.tag.getLastD 'x' ≠ '=' ∨ tres.tag.length < 2) →
      parseF (fuel + 1) st sec acc
        = .error (.parseErr st2.curline
            (match sec with
             | none => "Invalid meta tag"
             | some _ => "invalid meta tag")))
    ∧ (∀ a b, tres.tag.getLastD 'x' = '=' → 2 ≤ tres.tag.length →
        splitFirstSpace (trimSpace ((tres.tag.drop 1).take (tres.tag.length - 2)))
          = some (a, b) →
        parseF (fuel + 1) st sec acc
          = parseF fuel { st2 with otag := a, ctag := b } sec
              (if !tres.standalone then (acc ++ [.text text]) ++ [.text padding]
               else acc ++ [.text text]))
    ∧ (tres.tag.getLastD 'x' = '=' → 2 ≤ tres.tag.length →
        splitFirstSpace (trimSpace ((tres.tag.drop 1).take (tres.tag.length - 2)))
          = none →
        parseF (fuel + 1) st sec acc
          = parseF fuel st2 sec
              (if !tres.standalone then (acc ++ [.text text]) ++ [.text padding]
               else acc ++ [.text text]))
    ∧ parseTemplate "\x7b\x7b=ab\x7d\x7d" = .error (.parseErr 1 "Invalid meta tag")
    ∧ parseTemplate "\n\x7b\x7b=ab\x7d\x7d" = .error (.parseErr 2 "Invalid meta tag")
    ∧ parseTemplate "\x7b\x7b=<% %>=\x7d\x7d(<%x%>)"
        = .ok [.text [], .text [], .text ['('], .var ['x'] false, .text [')']] := by
  refine ⟨?_, ?_, ?_, by rfl, by rfl, by rfl⟩
  · intro hbad
    have hcond : (decide (tres.tag.getLastD 'x' ≠ '=')
        || decide (tres.tag.length < 2)) = true := by
      rcases hbad with h | h
      · rw [decide_eq_true h]; rfl
      · rw [decide_eq_true h, Bool.or_true]
    simp only [parseF, h1, h2, h3, hcond]
    simp
  · intro a b h4 h5 h6
    have hcond : (decide (tres.tag.getLastD 'x' ≠ '=')
        || decide (tres.tag.length < 2)) = false := by
      rw [decide_eq_false (by simpa using h4), decide_eq_false (Nat.not_lt.mpr h5)]
      rfl
    simp only [parseF, h1, h2, h3, hcond, h6]
    simp
  · intro h4 h5 h6
    have hcond : (decide (tres.tag.getLastD 'x' ≠ '=')
        || decide (tres.tag.length < 2)) = false := by
      rw [decide_eq_false (by simpa using h4), decide_eq_false (Nat.not_lt.mpr h5)]
      rfl
    simp only [parseF, h1, h2, h3, hcond, h6]
    simp

/-- Witness for C6 (amended) at the concrete template `{{=ab}}`. -/
theorem metaTagBehavior_witness :
    parseF 10 (initPSt "\x7b\x7b=ab\x7d\x7d") none []
      = .error (.parseErr 1 "Invalid meta tag") := by
  exact (metaTagBehavior 9 (initPSt "\x7b\x7b=ab\x7d\x7d")
    { initPSt "\x7b\x7b=ab\x7d\x7d" with p := 2 }
    { initPSt "\x7b\x7b=ab\x7d\x7d" with p := 7 } none [] [] [] true
    { tag := ['=', 'a', 'b'], standalone := true }
    (by rfl) (by rfl) (by rfl)).1 (by decide)

/-- C9 (counterexample): in `{{#a}}\n` the section-open tag sits on line 1
(the template's only line), yet the parse error carries line 2: the open
tag is standalone, so its trailing newline is consumed and the line
counter bumped *before* the section records its `startline`. -/
theorem unclosedSectionCounterexample :
    parseTemplate "\x7b\x7b#a\x7d\x7d\n"
      = .error (.parseErr 2 "Section a has no closing tag") := by rfl

/-- C9 (amended): reaching end of input while a section is open always
fails with `Section NAME has no closing tag` carrying the section's
*recorded* startline — the parser's line counter just after the open tag
was consumed — and no template is returned, while end of input at top
level is accepted.  The recorded line equals the open tag's source line
when the open tag is not standalone (third conjunct: error on line 1) but
is one greater when it is standalone, its newline already consumed
(fourth conjunct: tag on line 1, error says line 2). -/
theorem unclosedSectionError (fuel : Nat) (st : PSt) (sname : Str)
    (sinv : Bool) (sline : Nat) (acc : List Elem) (t : Str)
    (h : readText st = .eof t) :
    parseF (fuel + 1) st (some (sname, sinv, sline)) acc
      = .error (.parseErr sline
          ("Section " ++ String.mk sname ++ " has no closing tag"))
    ∧ (∀ acc2, parseF (fuel + 1) st none acc2 = .ok (acc2 ++ [.text t], st))
    ∧ parseTemplate "x\x7b\x7b#a\x7d\x7dy"
        = .error (.parseErr 1 "Section a has no closing tag")
    ∧ parseTemplate "\x7b\x7b#a\x7d\x7d\nmore\ntext"
        = .error (.parseErr 2 "Section a has no closing tag") := by
  refine ⟨?_, ?_, by rfl, by rfl⟩
  · simp only [parseF, h]
  · intro acc2; simp only [parseF, h]

/-- Witness for C9 (amended): the parser state just past the open tag of
`{{#a}}`, where the input ends. -/
theorem unclosedSectionError_witness :
    parseF 10 { initPSt "\x7b\x7b#a\x7d\x7d" with p := 6 }
        (some (['a'], false, 1)) []
      = .error (.parseErr 1 "Section a has no closing tag") :=
  (unclosedSectionError 9 { initPSt "\x7b\x7b#a\x7d\x7d" with p := 6 }
    ['a'] false 1 [] [] (by rfl)).1

theorem getTextF_nil (fuel : Nat) : getTextF fuel [] = [] := by
  cases fuel <;> rfl

theorem rsAux_none (data rest : Str) (hnb : lbrace ∉ data) :
    ∀ (fuel i nl : Nat), rsAux data (lbrace :: rest) fuel i nl = none := by
  intro fuel
  induction fuel with
  | zero => intro i nl; rfl
  | succ fuel ih =>
    intro i nl
    rw [rsAux]
    by_cases hc : i + (lbrace :: rest).length > data.length
    · rw [if_pos hc]
    · rw [if_neg hc]
      have hpre : ¬((lbrace :: rest).isPrefixOf (data.drop i) = true) := by
        intro hp
        have hx := List.isPrefixOf_iff_prefix.mp hp
        have hmem : lbrace ∈ data.drop i := hx.subset (by simp)
        exact hnb (List.mem_of_mem_drop hmem)
      simp only [if_neg hpre, ih]

theorem readText_noTag (st : PSt) (hnb : lbrace ∉ st.data)
    (ho : st.otag = [lbrace, lbrace]) :
    readText st = .eof (st.data.drop st.p) := by
  rw [readText, readStr, ho, rsAux_none st.data [lbrace] hnb]

theorem parseTemplate_textOnly (s : Str) (hnb : lbrace ∉ s) :
    parseTemplate (String.mk s) = .ok [.text s] := by
  have hlen : 2 * (String.mk s).length + 4 = (2 * s.length + 3) + 1 := by
    simp [String.length]
  rw [parseTemplate, hlen]
  rw [show initPSt (String.mk s)
      = ⟨s, [lbrace, lbrace], [rbrace, rbrace], 0, 1⟩ from rfl]
  rw [parseF, readText_noTag _ hnb rfl]
  simp

/-- C7 (counterexample): two parser-produced section-children lists whose
re-serialized source re-parses to a template that renders *differently*
from the children themselves.  First, `{{#w}}{{{B}}}{{/w}}`: the raw flag
of the triple-brace variable is not serialized (`getElementText` prints
plain `{{B}}`), so the round trip HTML-escapes `5 > 2` into `5 &gt; 2`.
Second, `{{#w}}A\n {{!c}}{{#s}}{{/w}}`-style children containing only
text and a nested section: in the re-serialized source
`A\n {{#s}}\nB{{/s}}` the inner section-open becomes *standalone*
(the comment that had blocked standaloneness is gone from the
serialization), so the round trip drops the one-space padding and the
newline, rendering `A\nB` instead of `A\n \nB`. -/
theorem roundTripCounterexample :
    parseTemplate "\x7b\x7b#w\x7d\x7d\x7b\x7b\x7bB\x7d\x7d\x7d\x7b\x7b/w\x7d\x7d"
      = .ok [.text [], .text [], .section ['w'] false 1 rawChildren, .text []]
    ∧ getSectionText 30 rawChildren = "\x7b\x7bB\x7d\x7d".toList
    ∧ renderF ⟨.EscapeHTML, false, none⟩ 30 (.many rawChildren) chainRaw []
        = .ok "5 > 2".toList
    ∧ (parseTemplate "\x7b\x7bB\x7d\x7d").map
        (fun es => renderTemplate ⟨.EscapeHTML, false, none⟩ 30 es chainRaw)
        = .ok (.ok "5 &gt; 2".toList)
    ∧ "5 > 2".toList ≠ "5 &gt; 2".toList
    ∧ parseTemplate
        "\x7b\x7b#w\x7d\x7dA\n \x7b\x7b!c\x7d\x7d\x7b\x7b#s\x7d\x7d\nB\x7b\x7b/s\x7d\x7d\x7b\x7b/w\x7d\x7d"
      = .ok [.text [], .text [], .section ['w'] false 1 wsChildren, .text []]
    ∧ getSectionText 30 wsChildren
        = "A\n \x7b\x7b#s\x7d\x7d\nB\x7b\x7b/s\x7d\x7d".toList
    ∧ renderF ⟨.EscapeHTML, false, none⟩ 30 (.many wsChildren) chainWs []
        = .ok "A\n \nB".toList
    ∧ (parseTemplate "A\n \x7b\x7b#s\x7d\x7d\nB\x7b\x7b/s\x7d\x7d").map
        (fun es => renderTemplate ⟨.EscapeHTML, false, none⟩ 30 es chainWs)
        = .ok (.ok "A\nB".toList)
    ∧ "A\n \nB".toList ≠ "A\nB".toList :=
  ⟨by rfl, by rfl, by rfl, by rfl, by decide, by rfl, by rfl, by rfl, by rfl,
   by decide⟩

/-- C7 (amended): the round trip is semantics-preserving for children
whose serialization introduces no new standalone positions and loses no
raw flag.  In particular (general conjuncts) tag-free pure-text children
serialize to themselves and re-parse to an identical element list — hence
render identically — and (concrete conjunct) a single-line
text/variable/section children list renders identically after the round
trip.  Raw variables and partials (dropped entirely by `getElementText`)
and layouts where serialization creates new standalone elisions are
excluded, as the counterexample forces. -/
theorem roundTripTextOnly (s : Str) (hnb : lbrace ∉ s) :
    (∀ fuel : Nat, getSectionText (fuel + 1) [.text s] = s)
    ∧ parseTemplate (String.mk s) = .ok [.text s]
    ∧ (∀ (cfg : Cfg) (fuel : Nat) (chain : List Val) (acc : Str),
        renderF cfg (fuel + 2) (.many [.text s]) chain acc = .ok (acc ++ s))
    ∧ getSectionText 30 mixedChildren
        = "a\x7b\x7bB\x7d\x7d\x7b\x7b#s\x7d\x7dx\x7b\x7b/s\x7d\x7d".toList
    ∧ (parseTemplate "a\x7b\x7bB\x7d\x7d\x7b\x7b#s\x7d\x7dx\x7b\x7b/s\x7d\x7d").map
        (fun es => renderTemplate ⟨.EscapeHTML, false, none⟩ 30 es chainM)
        = .ok (renderF ⟨.EscapeHTML, false, none⟩ 30 (.many mixedChildren) chainM []) := by
  refine ⟨?_, parseTemplate_textOnly s hnb, ?_, by rfl, by rfl⟩
  · intro fuel
    simp [getSectionText, getTextF, getTextF_nil]
  · intro cfg fuel chain acc
    simp [renderF, renderF_many_nil]

/-- Witness for C7 (amended): pure-text children `hello\nworld`. -/
theorem roundTripTextOnly_witness :
    parseTemplate (String.mk "hello\nworld".toList)
      = .ok [.text "hello\nworld".toList] :=
  (roundTripTextOnly "hello\nworld".toList (by decide)).2.1
